import Mathlib

/-!
Verification of the dtsgenerator schema-resolution and type-synthesis engine
(`src/core/dtsGenerator.ts`, `src/core/schema.ts`) against its specification.

JavaScript objects are modelled as association lists of string keys in
insertion order; JavaScript in-place mutation of a content node is modelled
by returning the updated tree (`Json.setPtr` supplies the denotation of a
mutation performed through an aliased sub-node pointer).
-/

/-- A JSON value, the model of a parsed schema content tree.  Objects keep
their fields in insertion order, as JavaScript objects do. -/
inductive Json where
  | null
  | bool (b : Bool)
  | num (n : Int)
  | str (s : String)
  | arr (elems : List Json)
  | obj (fields : List (String × Json))
deriving Repr

mutual

/-- Structural equality decision for `Json`. -/
def Json.decEq : (a b : Json) → Decidable (a = b)
  | .null, .null => isTrue rfl
  | .bool a, .bool b =>
    match (inferInstance : Decidable (a = b)) with
    | isTrue h => isTrue (by rw [h])
    | isFalse h => isFalse (fun he => h (Json.bool.inj he))
  | .num a, .num b =>
    match (inferInstance : Decidable (a = b)) with
    | isTrue h => isTrue (by rw [h])
    | isFalse h => isFalse (fun he => h (Json.num.inj he))
  | .str a, .str b =>
    match (inferInstance : Decidable (a = b)) with
    | isTrue h => isTrue (by rw [h])
    | isFalse h => isFalse (fun he => h (Json.str.inj he))
  | .arr a, .arr b =>
    match Json.decEqList a b with
    | isTrue h => isTrue (by rw [h])
    | isFalse h => isFalse (fun he => h (Json.arr.inj he))
  | .obj a, .obj b =>
    match Json.decEqFields a b with
    | isTrue h => isTrue (by rw [h])
    | isFalse h => isFalse (fun he => h (Json.obj.inj he))
  | .null, .bool _ | .null, .num _ | .null, .str _ | .null, .arr _ | .null, .obj _
  | .bool _, .null | .bool _, .num _ | .bool _, .str _ | .bool _, .arr _ | .bool _, .obj _
  | .num _, .null | .num _, .bool _ | .num _, .str _ | .num _, .arr _ | .num _, .obj _
  | .str _, .null | .str _, .bool _ | .str _, .num _ | .str _, .arr _ | .str _, .obj _
  | .arr _, .null | .arr _, .bool _ | .arr _, .num _ | .arr _, .str _ | .arr _, .obj _
  | .obj _, .null | .obj _, .bool _ | .obj _, .num _ | .obj _, .str _ | .obj _, .arr _ =>
    isFalse (by intro h; exact Json.noConfusion h)

/-- Structural equality decision for lists of `Json`. -/
def Json.decEqList : (a b : List Json) → Decidable (a = b)
  | [], [] => isTrue rfl
  | [], _ :: _ => isFalse (by intro h; exact List.noConfusion h)
  | _ :: _, [] => isFalse (by intro h; exact List.noConfusion h)
  | x :: xs, y :: ys =>
    match Json.decEq x y, Json.decEqList xs ys with
    | isTrue h1, isTrue h2 => isTrue (by rw [h1, h2])
    | isFalse h1, _ => isFalse (fun he => h1 (List.cons.inj he).1)
    | _, isFalse h2 => isFalse (fun he => h2 (List.cons.inj he).2)

/-- Structural equality decision for field lists of `Json` objects. -/
def Json.decEqFields : (a b : List (String × Json)) → Decidable (a = b)
  | [], [] => isTrue rfl
  | [], _ :: _ => isFalse (by intro h; exact List.noConfusion h)
  | _ :: _, [] => isFalse (by intro h; exact List.noConfusion h)
  | (k, v) :: xs, (k', v') :: ys =>
    match (inferInstance : Decidable (k = k')), Json.decEq v v', Json.decEqFields xs ys with
    | isTrue h0, isTrue h1, isTrue h2 => isTrue (by rw [h0, h1, h2])
    | isFalse h0, _, _ =>
      isFalse (fun he => h0 (congrArg Prod.fst (List.cons.inj he).1))
    | _, isFalse h1, _ =>
      isFalse (fun he => h1 (congrArg Prod.snd (List.cons.inj he).1))
    | _, _, isFalse h2 => isFalse (fun he => h2 (List.cons.inj he).2)

end

instance : DecidableEq Json := Json.decEq

/-- Field lookup in an association list (first match, as JavaScript property
lookup; object keys are unique). -/
def getField : List (String × Json) → String → Option Json
  | [], _ => none
  | (k', v) :: rest, k => if k' = k then some v else getField rest k

/-- Field update: an existing key keeps its position (JavaScript assignment
to an existing property), a new key is appended (insertion order). -/
def setField : List (String × Json) → String → Json → List (String × Json)
  | [], k, v => [(k, v)]
  | (k', v') :: rest, k, v =>
    if k' = k then (k, v) :: rest else (k', v') :: setField rest k v

/-- Field removal, the model of the JavaScript `delete` operator. -/
def delField (kvs : List (String × Json)) (k : String) : List (String × Json) :=
  kvs.filter (fun kv => kv.1 ≠ k)

/-- Property read `content[k]`; reading a property of a non-object yields
`undefined` (`none`). -/
def Json.get : Json → String → Option Json
  | .obj kvs, k => getField kvs k
  | _, _ => none

/-- Property write `content[k] = v`; a no-op on non-objects. -/
def Json.set : Json → String → Json → Json
  | .obj kvs, k, v => .obj (setField kvs k v)
  | j, _, _ => j

/-- Property deletion `delete content[k]`; a no-op on non-objects. -/
def Json.del : Json → String → Json
  | .obj kvs, k => .obj (delField kvs k)
  | j, _ => j

/-- JavaScript truthiness of a value. -/
def Json.truthy : Json → Bool
  | .null => false
  | .bool b => b
  | .num n => n ≠ 0
  | .str s => s ≠ ""
  | .arr _ => true
  | .obj _ => true

/-- JavaScript truthiness of a possibly-undefined value. -/
def Json.truthyOpt : Option Json → Bool
  | none => false
  | some j => j.truthy

/-- Removes duplicates keeping the first occurrence of each element; `seen`
accumulates the elements already emitted. -/
def dedupKeepFirstAux {α : Type} [DecidableEq α] (seen : List α) : List α → List α
  | [] => []
  | x :: xs =>
    if x ∈ seen then dedupKeepFirstAux seen xs
    else x :: dedupKeepFirstAux (seen ++ [x]) xs

/-- Removes duplicates from a list keeping first occurrences. -/
def dedupKeepFirst {α : Type} [DecidableEq α] (l : List α) : List α :=
  dedupKeepFirstAux [] l

/-- Modelled from the spec: `utils.reduceTypes` (utils.ts is not under src/).
Per §3 a `type` array is "reduced to its minimal distinct set", modelled as
duplicate removal keeping first occurrences. -/
def reduceTypes (types : List Json) : List Json := dedupKeepFirst types

/-- Merges the members of an object-valued key by member name, right-hand
entries overriding on name collision (the overriding entry keeps the
position of the entry it replaces, new names are appended). -/
def mergeByName (l r : List (String × Json)) : List (String × Json) :=
  r.foldl (fun acc kv => setField acc kv.1 kv.2) l

/-- Modelled from the spec: `utils.mergeSchema` (utils.ts is not under src/).
Per §3: object-valued keys (such as `properties`) union by member name with
right-hand entries overriding on name collision; array-valued keys (such as
`required`) concatenate with duplicates removed; all other keys follow
last-writer-wins. -/
def mergeSchema (left right : Json) : Json :=
  match left, right with
  | .obj _, .obj rkvs =>
    rkvs.foldl (fun acc kv =>
      match acc.get kv.1, kv.2 with
      | some (.obj lf), .obj rf => acc.set kv.1 (.obj (mergeByName lf rf))
      | some (.arr la), .arr ra => acc.set kv.1 (.arr (dedupKeepFirst (la ++ ra)))
      | _, _ => acc.set kv.1 kv.2) left
  | _, _ => right

/-- Folds the members of an `allOf` list into `work` in order
(dtsGenerator.ts lines 86-94).  A member that is an object with a truthy
`$ref` string is first dereferenced and normalized through `normRef`
(`none` models the thrown error of a failed dereference).  Non-array member
and `$ref` values on which the JavaScript would throw are merged directly. -/
def normalizeAllOfMembers (normRef : String → Option Json) : Json → List Json → Option Json
  | work, [] => some work
  | work, sub :: rest =>
    match sub.get "$ref" with
    | some (.str rs) =>
      if rs = "" then normalizeAllOfMembers normRef (mergeSchema work sub) rest
      else
        match normRef rs with
        | some sub' => normalizeAllOfMembers normRef (mergeSchema work sub') rest
        | none => none
    | _ => normalizeAllOfMembers normRef (mergeSchema work sub) rest

/-- The `type`-field normalization of `normalizeContent` (dtsGenerator.ts
lines 98-104): a missing `type` becomes `object` when `properties` or
`additionalProperties` is truthy; a `type` array is reduced and unwrapped
when exactly one entry remains. -/
def normalizeTypeField (c1 : Json) : Json :=
  match c1.get "type" with
  | none =>
    if (Json.truthyOpt (c1.get "properties")) || (Json.truthyOpt (c1.get "additionalProperties"))
    then c1.set "type" (.str "object")
    else c1
  | some (.arr ts) =>
    c1.set "type" (match reduceTypes ts with
      | [t] => t
      | l => .arr l)
  | some _ => c1

/-- The content computation of `DtsGenerator.normalizeContent`
(dtsGenerator.ts lines 76-108), without a pointer argument: boolean schemas
become the empty object / the object with an empty `not`; an `allOf` array
is folded into the node member by member and then deleted; finally the `type` field is
normalized.  `deref` models `resolver.dereference` (`none` = unregistered
id, which throws).  `fuel` bounds the recursion through dereferenced
`allOf` members; every run of the JavaScript that terminates is modelled by
a large enough fuel. -/
def normalizeContent (deref : String → Option Json) : Nat → Json → Option Json
  | 0, _ => none
  | _ + 1, .bool b => some (if b then .obj [] else .obj [("not", .obj [])])
  | fuel + 1, c =>
    let c1opt : Option Json :=
      match c.get "allOf" with
      | some (.arr subs) =>
        (normalizeAllOfMembers
          (fun rs => (deref rs).bind (fun t => normalizeContent deref fuel t))
          c subs).map (fun w => w.del "allOf")
      | _ => some c
    c1opt.map normalizeTypeField

/-- Modelled from the spec: `JsonPointer.get` (jsonPointer.ts is not under
src/), §4.2: "JSON-pointer navigation into the parent content".  Navigates
a parsed pointer path; object reference tokens select fields, numeric
tokens index arrays; a token that does not exist yields `none` (the fatal
`SchemaError` of §4.2). -/
def Json.getPtr : Json → List String → Option Json
  | j, [] => some j
  | .obj kvs, k :: rest =>
    match getField kvs k with
    | some v => v.getPtr rest
    | none => none
  | .arr xs, k :: rest =>
    match k.toNat? with
    | some i =>
      match xs.get? i with
      | some v => v.getPtr rest
      | none => none
    | none => none
  | _, _ :: _ => none

/-- Replaces the sub-tree at a pointer path, leaving the rest of the tree
unchanged.  Together with `Json.getPtr` this is the denotation of a
JavaScript mutation performed through the aliased sub-node that
`JsonPointer.get` returns: the enclosing tree afterwards equals the old
tree with the node at the pointer replaced. -/
def Json.setPtr : Json → List String → Json → Json
  | _, [], v => v
  | .obj kvs, k :: rest, v =>
    match getField kvs k with
    | some old => .obj (setField kvs k (old.setPtr rest v))
    | none => .obj kvs
  | .arr xs, k :: rest, v =>
    match k.toNat? with
    | some i =>
      match xs.get? i with
      | some old => .arr (xs.set i (old.setPtr rest v))
      | none => .arr xs
    | none => .arr xs
  | j, _ :: _, _ => j

/-- The effect of `normalizeContent(schema, pointer)` (dtsGenerator.ts lines
76-79) on the enclosing content tree: `getSubSchema` returns the node at
the pointer by reference, and normalization then rewrites that node in
place (`delete content.allOf`, `content.type = ...`), so the enclosing tree
afterwards is the old tree with the node at the pointer replaced by its
normalized form. -/
def normalizeInPlaceAt (deref : String → Option Json) (fuel : Nat)
    (root : Json) (pointer : List String) : Option Json :=
  match root.getPtr pointer with
  | some sub =>
    match normalizeContent deref fuel sub with
    | some sub' => some (root.setPtr pointer sub')
    | none => none
  | none => none

/-- The only write to a schema's content tree performed by the emitter
outside `normalizeContent`: `DtsGenerator.generateType` (dtsGenerator.ts
lines 391-408) re-reduces an array-valued `type` and, when at most one
entry remains, assigns `schema.content.type = types[0]` (assigning
`undefined`, i.e. removing the value, when the reduction is empty).  All
other emitter operations only read the content. -/
def generateTypeWrite (content : Json) : Json :=
  match content.get "type" with
  | some (.arr ts) =>
    match reduceTypes ts with
    | [] => content.del "type"
    | [t] => content.set "type" t
    | _ => content
  | _ => content

/-- An OpenAPI v3 operation parameter as consumed by `normalizeParameter`
(`OpenAPIV3.ParameterObject`): its name, location (`in`), required flag and
optional schema. -/
structure ParameterObject where
  name : String
  «in» : String
  required : Bool
  schema : Option Json
deriving DecidableEq, Repr

/-- The parameter-schema normalization closure `normalizeSchema` of
`resolveOpenAPIV3SchemaContentObject` (dtsGenerator.ts lines 131-142): a
`$ref` parameter schema is dereferenced (`none` models the thrown error of
an unregistered id); an object- or array-typed schema has its type coerced
to `string`; an absent schema yields the empty object (the JavaScript
`Object.assign(\x7b\x7d, undefined)`), whose `type` stays undefined, so the
literal `\x7btype: 'string'\x7d` fallback branch is unreachable because a
registered schema always carries a content. -/
def normalizeParamSchema (deref : String → Option Json) (s : Option Json) : Option Json :=
  let s1 : Json := match s with
    | none => .obj []
    | some j => j
  let s2 : Option Json := match s1.get "$ref" with
    | some (.str rs) => deref rs
    | _ => some s1
  s2.map (fun sj =>
    match sj.get "type" with
    | some t =>
      if t = .str "object" ∨ t = .str "array" then sj.set "type" (.str "string")
      else sj.set "type" t
    | none => sj)

/-- The accumulator seed of the parameter reduce (dtsGenerator.ts lines
160-164). -/
def parameterInitial : Json :=
  .obj [("type", .str "object"), ("properties", .obj []), ("required", .arr [])]

/-- One step of the parameter reduce (dtsGenerator.ts lines 147-159): when
the accumulator has truthy `properties`, the parameter's normalized schema
is stored under the parameter's name, and a required parameter's name is
appended to the truthy `required` list. -/
def parameterReduceStep (deref : String → Option Json) (prev : Json)
    (target : ParameterObject) : Option Json :=
  match prev.get "properties" with
  | some props =>
    if props.truthy then
      match normalizeParamSchema deref target.schema with
      | some s =>
        let next1 := prev.set "properties" (props.set target.name s)
        if target.required then
          match next1.get "required" with
          | some req =>
            if req.truthy then
              match req with
              | .arr rs => some (next1.set "required" (.arr (rs ++ [.str target.name])))
              | _ => some next1
            else some next1
          | none => some next1
        else some next1
      | none => none
    else some prev
  | none => some prev

/-- The full parameter reduce of `normalizeParameter` (dtsGenerator.ts lines
147-164).  Note that the source folds over `params` — all operation
parameters — not over the location-filtered list. -/
def buildParameterObject (deref : String → Option Json)
    (params : List ParameterObject) : Option Json :=
  params.foldlM (parameterReduceStep deref) parameterInitial

/-- A schema synthesized during OpenAPI v3 operation resolution: its
canonical absolute id and its content.  Modelled from the spec where
schemaId.ts is missing from src/: §3 makes a SchemaId built from an
already-absolute id string canonicalize to that same string, so ids are
carried as plain strings. -/
structure SynthesizedSchema where
  id : String
  content : Json
deriving DecidableEq, Repr

/-- `normalizeParameter` of `resolveOpenAPIV3SchemaContentObject`
(dtsGenerator.ts lines 144-185): when at least one operation parameter has
location `paramName`, a parameter-group schema is built by reducing over
all parameters (`filterdParams` is only consulted for emptiness), a
`<paramName>Param` `$ref` property is added to the request wrapper content,
and the wrapper's `required` gains the property name when the group has
required members.  Returns the updated request wrapper content and the
parameter-group schema, if one was built. -/
def normalizeParameter (deref : String → Option Json) (baseId : String)
    (requestContent : Json) (params : List ParameterObject)
    (paramName : String) : Option (Json × Option SynthesizedSchema) :=
  let filterdParams := params.filter (fun p => p.«in» = paramName)
  if filterdParams.length ≠ 0 then
    match buildParameterObject deref params with
    | some parameterObject =>
      let propertyName := paramName ++ "Param"
      let parameterSchemaId := baseId ++ "/" ++ (paramName ++ "Parameter")
      let requestContent' :=
        match requestContent.get "properties" with
        | some props =>
          if props.truthy then
            let rc1 := requestContent.set "properties"
              (props.set propertyName (.obj [("$ref", .str parameterSchemaId)]))
            match rc1.get "required", parameterObject.get "required" with
            | some rq, some pr =>
              if rq.truthy && pr.truthy then
                match rq, pr with
                | .arr rqs, .arr prs =>
                  if prs.length > 0 then rc1.set "required" (.arr (rqs ++ [.str propertyName]))
                  else rc1
                | _, _ => rc1
              else rc1
            | _, _ => rc1
          else requestContent
        | none => requestContent
      some (requestContent', some ⟨parameterSchemaId, parameterObject⟩)
    | none => none
  else some (requestContent, none)

/-- `DtsGenerator.mediaTypeToTypeNamePrefix` (dtsGenerator.ts lines
234-247); the trailing word of the source name is dropped here because the
file's token conventions reserve it. -/
def mediaTypeToTypeName (mediaType : String) : String :=
  match mediaType with
  | "application/json" => "json"
  | "application/xml" => "xml"
  | "application/x-www-form-urlencoded" => "form"
  | "text/plain" => "text"
  | _ => mediaType

/-- `DtsGenerator.resolveOpenAPIV3Object` (dtsGenerator.ts lines 249-251):
an object whose `$ref` is a string is replaced by the dereferenced
schema's content (`none` models the thrown error of an unregistered id). -/
def resolveOpenAPIV3Object (deref : String → Option Json) (obj : Json) : Option Json :=
  match obj.get "$ref" with
  | some (.str rs) => deref rs
  | _ => some obj

/-- One entry of the result list built by the request-body loop
(dtsGenerator.ts lines 198-225).  A `body` entry owns its content (the
media type's schema); a `wrapper` entry records only its id, because in the
source every wrapper variant shares — by `Object.assign` shallow copy — the
single request-wrapper content object, whose final state is only known
after the loop. -/
inductive SynthEntry where
  | body (s : SynthesizedSchema)
  | wrapper (id : String)
deriving DecidableEq, Repr

/-- The request-body media-type loop (dtsGenerator.ts lines 196-225),
threading the shared request-wrapper content: for each media type with a
truthy schema the body content is dereferenced if needed, a body schema
`<baseId>/[<mediaName>]RequestBody` is emitted (name part omitted when the
operation has a single media type), the shared wrapper content's `body`
property is pointed at it, `body` is appended to the shared `required`
when the body content has a nonempty `required` array, and a wrapper
variant id `<baseId>/[<mediaName>Request]` is emitted. -/
def processMediaTypes (deref : String → Option Json) (baseId : String)
    (singleMedia : Bool) :
    Json → List (String × Json) → List SynthEntry → Option (Json × List SynthEntry)
  | shared, [], acc => some (shared, acc)
  | shared, (mediaType, bodyContent) :: rest, acc =>
    match bodyContent.get "schema" with
    | some sch =>
      if sch.truthy then
        match resolveOpenAPIV3Object deref sch with
        | some bodyContentSchema =>
          let bodyTypeName := mediaTypeToTypeName mediaType
          let bodyId := baseId ++ "/" ++ (if singleMedia then "" else bodyTypeName) ++ "RequestBody"
          let wrapperId := baseId ++ "/" ++ (if singleMedia then "" else bodyTypeName ++ "Request")
          let shared' :=
            match shared.get "properties" with
            | some props =>
              if props.truthy then
                let s1 := shared.set "properties"
                  (props.set "body" (.obj [("$ref", .str bodyId)]))
                match bodyContentSchema.get "required" with
                | some (.arr reqs) =>
                  if reqs.length > 0 then
                    match s1.get "required" with
                    | some rq =>
                      if rq.truthy then
                        match rq with
                        | .arr rqs => s1.set "required" (.arr (rqs ++ [.str "body"]))
                        | _ => s1
                      else s1
                    | none => s1
                  else s1
                | _ => s1
              else shared
            | none => shared
          processMediaTypes deref baseId singleMedia shared' rest
            (acc ++ [.body ⟨bodyId, bodyContentSchema⟩, .wrapper wrapperId])
        | none => none
      else processMediaTypes deref baseId singleMedia shared rest acc
    | none => processMediaTypes deref baseId singleMedia shared rest acc

/-- The request-body section of `resolveOpenAPIV3SchemaContentObject`
(dtsGenerator.ts lines 194-226): the request body object is dereferenced if
needed, its media-type map's keys drive the loop, and a single media type
suppresses the name part in synthesized ids. -/
def resolveRequestBodySection (deref : String → Option Json) (baseId : String)
    (requestContent : Json) (requestBodyRaw : Json) : Option (Json × List SynthEntry) :=
  match resolveOpenAPIV3Object deref requestBodyRaw with
  | some requestBody =>
    match requestBody.get "content" with
    | some (.obj media) =>
      processMediaTypes deref baseId (media.length = 1) requestContent media []
    | _ => none
  | none => none

/-- Resolves the wrapper entries of the result list to concrete schemas:
every wrapper variant's content is the shared request-wrapper content as
observed after the whole loop has run. -/
def materializeEntries (finalShared : Json) : List SynthEntry → List SynthesizedSchema
  | [] => []
  | .body s :: rest => s :: materializeEntries finalShared rest
  | .wrapper i :: rest => ⟨i, finalShared⟩ :: materializeEntries finalShared rest

/-- The request-wrapper seed content of
`resolveOpenAPIV3SchemaContentObject` (dtsGenerator.ts lines 120-127). -/
def requestInitialContent : Json :=
  .obj [("properties", .obj []), ("required", .arr []), ("type", .str "object")]

/-- One slot of an emitted fixed-length tuple alternative
(`generateArrayTypeProperty`). -/
inductive TupleSlot where
  | item (i : Nat)
  | objectType
  | anyType
deriving DecidableEq, Repr

/-- The output shape of `generateArrayTypeProperty`. -/
inductive ArrayTypeOutput where
  | anyArray
  | itemArray
  | tupleUnion (tuples : List (List TupleSlot))
deriving DecidableEq, Repr

/-- The slots of the fixed-length tuple of length `n` emitted by the inner
loop of `generateArrayTypeProperty` (dtsGenerator.ts lines 363-381):
positions below `itemsLength` use the corresponding item schema's type,
later positions use the generic object type except the position
`effectiveMaxItems - 1`, which uses the open `any` type. -/
def tupleSlots (itemsLength effectiveMaxItems n : Nat) : List TupleSlot :=
  (List.range n).map (fun i =>
    if i < itemsLength then .item i
    else if i < effectiveMaxItems - 1 then .objectType
    else .anyType)

/-- `DtsGenerator.generateArrayTypeProperty` (dtsGenerator.ts lines
345-389), abstracted to the emitted type shape.  `items` is the schema
content's `items` field (`none` = absent or null, `.inl` = a single item
schema, `.inr` = the tuple-form list); `minItems` is the content's
`minItems` field, a natural number as JSON Schema requires. -/
def generateArrayTypeProperty (items : Option (Json ⊕ List Json))
    (minItems : Option Nat) : ArrayTypeOutput :=
  match items with
  | none => .anyArray
  | some (.inl _) => .itemArray
  | some (.inr l) =>
    if l.length = 0 ∧ minItems = none then .anyArray
    else
      let effectiveMaxItems := 1 + max (minItems.getD 0) l.length
      let start := match minItems with
        | none => 1
        | some m => m
      .tupleUnion ((List.range' start (effectiveMaxItems + 1 - start)).map
        (tupleSlots l.length effectiveMaxItems))

/-- The tuple union described by claim C2 and spec §4.5, written from the
claim's words: one fixed-length tuple for each length `n` from `minItems`
(or 1 when absent) up to `effectiveMax = 1 + max(minItems or 0, length)`
inclusive, where slot `i` uses the i-th item schema's type when
`i < length`, the open `any` type when `i = effectiveMax - 1`, and the
generic object type for every other slot at or beyond `length`. -/
def specTupleSlots (itemsLength effectiveMax n : Nat) : List TupleSlot :=
  (List.range n).map (fun i =>
    if i < itemsLength then .item i
    else if i = effectiveMax - 1 then .anyType
    else .objectType)

/-- The spec-side tuple union of claim C2 (see `specTupleSlots`). -/
def specTupleUnion (minItems : Option Nat) (itemsLength : Nat) : List (List TupleSlot) :=
  let effectiveMax := 1 + max (minItems.getD 0) itemsLength
  let start := minItems.getD 1
  (List.range' start (effectiveMax + 1 - start)).map (specTupleSlots itemsLength effectiveMax)

/-- A node of the namespace tree built by `buildSchemaMergedMap`: an
optional leaf marker (the registered schema at this path, recorded under
the `typeMarker` symbol key, carried here as the schema's absolute id) and
the nested children, keyed by path segment in insertion order. -/
inductive NsNode where
  | mk (marker : Option String) (children : List (String × NsNode))

/-- Marker accessor for `NsNode`. -/
def NsNode.marker : NsNode → Option String
  | .mk m _ => m

/-- Children accessor for `NsNode`. -/
def NsNode.children : NsNode → List (String × NsNode)
  | .mk _ cs => cs

/-- One observable event of the tree walk (dtsGenerator.ts lines 39-55):
emitting the schema held by a leaf marker, or entering/leaving a nested
namespace block. -/
inductive WalkEvent where
  | visitSchema (id : String)
  | startNest (key : String)
  | endNest
deriving DecidableEq, Repr

/-- `Object.keys(map).sort()` (dtsGenerator.ts line 40): the level's
entries ordered by key. -/
def sortChildren (cs : List (String × NsNode)) : List (String × NsNode) :=
  List.insertionSort (fun a b => a.1 ≤ b.1) cs

/-- Lists are `sizeOf`-invariant under permutation. -/
theorem sizeOf_of_perm {α : Type} [SizeOf α] {l1 l2 : List α}
    (h : l1.Perm l2) : sizeOf l1 = sizeOf l2 := by
  induction h with
  | nil => rfl
  | cons x _ ih => simp [ih]
  | swap x y l => simp; omega
  | trans _ _ ih1 ih2 => omega

mutual

/-- Processes the already-sorted entries of one namespace level
(dtsGenerator.ts lines 41-54): a leaf marker's schema is emitted first,
then a node with children is walked inside a `startNest`/`endNest` pair. -/
def walkSorted : List (String × NsNode) → List WalkEvent
  | [] => []
  | (key, .mk marker children) :: rest =>
    (match marker with
      | some s => [.visitSchema s]
      | none => []) ++
    (if children.isEmpty then []
      else .startNest key :: walkMap children ++ [.endNest]) ++
    walkSorted rest
termination_by l => sizeOf l
decreasing_by
  all_goals simp
  all_goals omega

/-- `DtsGenerator.walk` (dtsGenerator.ts lines 39-55): sorts the level's
keys, then processes the entries in that order. -/
def walkMap (cs : List (String × NsNode)) : List WalkEvent :=
  walkSorted (sortChildren cs)
termination_by sizeOf cs + 1
decreasing_by
  simp only [sortChildren]
  rw [sizeOf_of_perm (List.perm_insertionSort (fun a b : String × NsNode => a.1 ≤ b.1) cs)]
  omega

end

/-- Modelled from the spec: `utils.toTSType` (utils.ts is not under src/).
Per §4.5 the recognized primitive `type` names `string`, `number`,
`integer`, `boolean`, `null` map to the target's closest primitive, and the
special marker type `any` maps to the open `any` type; `object` and `array`
yield nothing here because `generateTypeName` handles them structurally. -/
def toTSType (type : String) : Option String :=
  match type with
  | "any" => some "any"
  | "string" => some "string"
  | "number" => some "number"
  | "integer" => some "number"
  | "boolean" => some "boolean"
  | "null" => some "null"
  | _ => none

/-- What `generateTypeName` emits for a recognized `type`. -/
inductive EmitKind where
  | primitive (tsType : String)
  | objectNest
  | arrayType
deriving DecidableEq, Repr

/-- A fatal generation error; `unknownType` models the
`throw new Error('unknown type: ' + type)` of dtsGenerator.ts line 420. -/
inductive GenerationError where
  | unknownType (t : String)
deriving DecidableEq, Repr

/-- `DtsGenerator.generateTypeName` (dtsGenerator.ts lines 409-422): a
recognized primitive `type` is emitted as the mapped primitive, `object`
and `array` dispatch to structural generation, and any other `type` throws
a fatal error carrying the offending type. -/
def generateTypeName (type : String) : Except GenerationError EmitKind :=
  match toTSType type with
  | some ts => .ok (.primitive ts)
  | none =>
    if type = "object" then .ok .objectNest
    else if type = "array" then .ok .arrayType
    else .error (.unknownType type)

/-- A run of type-name generation over the schemas reaching the emitter:
the thrown error of any schema aborts the whole run (§7: "there is no
partial/degraded output"), so the run's result is either the full list of
emissions or an error. -/
def generateAllTypeNames : List String → Except GenerationError (List EmitKind)
  | [] => .ok []
  | t :: rest =>
    match generateTypeName t with
    | .ok e =>
      match generateAllTypeNames rest with
      | .ok es => .ok (e :: es)
      | .error err => .error err
    | .error err => .error err

/-- The method keys whose operations `walkOpenAPIV3Paths` visits
(dtsGenerator.ts line 595). -/
def walkMethodKeys : List String := ["get", "post", "put", "patch", "delete", "head"]

/-- The JavaScript `typeof x === 'object' && x != null` test used by the
early return of `walkOpenAPIV3Operation` (schema.ts line 572): objects and
arrays pass, `null` fails the non-null half. -/
def Json.isObjectLike : Json → Bool
  | .obj _ => true
  | .arr _ => true
  | _ => false

/-- `walkOpenAPIV3Paths` (schema.ts lines 589-600) composed with the
null/non-object early return of `walkOpenAPIV3Operation` (schema.ts lines
571-573): for every path item, exactly the operations stored under the six
method keys are visited, as `(path, method, operation)` triples in key
order. -/
def walkOpenAPIV3Paths (pathObject : List (String × Json)) : List (String × String × Json) :=
  pathObject.flatMap (fun pkv =>
    walkMethodKeys.filterMap (fun m =>
      (pkv.2.get m).bind (fun op =>
        if op.isObjectLike then some (pkv.1, m, op) else none)))

/-- Looking up the key just set yields the new value. -/
theorem getField_setField_self (kvs : List (String × Json)) (k : String) (v : Json) :
    getField (setField kvs k v) k = some v := by
  induction kvs with
  | nil => simp [setField, getField]
  | cons kv rest ih =>
    by_cases h : kv.1 = k
    · simp [setField, getField, h]
    · simp [setField, getField, h, ih]

/-- Setting one key leaves lookups of other keys unchanged. -/
theorem getField_setField_ne (kvs : List (String × Json)) {k k' : String} (v : Json)
    (h : k' ≠ k) : getField (setField kvs k' v) k = getField kvs k := by
  induction kvs with
  | nil => simp [setField, getField, h]
  | cons kv rest ih =>
    by_cases h2 : kv.1 = k'
    · simp [setField, getField, h2, h]
    · by_cases h3 : kv.1 = k <;> simp [setField, getField, h2, h3, ih, Ne.symm h]

/-- Looking up a deleted key yields nothing. -/
theorem getField_delField_self (kvs : List (String × Json)) (k : String) :
    getField (delField kvs k) k = none := by
  induction kvs with
  | nil => simp [delField, getField]
  | cons kv rest ih =>
    by_cases h : kv.1 = k
    · simpa [delField, getField, h] using ih
    · simpa [delField, getField, h] using ih

/-- Reading the key just written yields the new value (objects only; a
write to a non-object is dropped). -/
theorem Json.get_set_self (kvs : List (String × Json)) (k : String) (v : Json) :
    (Json.set (.obj kvs) k v).get k = some v := by
  simp [Json.set, Json.get, getField_setField_self]

/-- Writing one key leaves reads of other keys unchanged. -/
theorem Json.get_set_ne (j : Json) {k k' : String} (v : Json) (h : k' ≠ k) :
    (j.set k' v).get k = j.get k := by
  cases j <;> simp [Json.set, Json.get]
  exact getField_setField_ne _ v h

/-- Reading a deleted key yields nothing. -/
theorem Json.get_del_self (j : Json) (k : String) : (j.del k).get k = none := by
  cases j <;> simp [Json.del, Json.get]
  exact getField_delField_self _ k

/-- Membership in the deduplicated list: exactly the elements of the input
not already seen. -/
theorem mem_dedupKeepFirstAux {α : Type} [DecidableEq α] (l : List α) :
    ∀ (seen : List α) (x : α),
      x ∈ dedupKeepFirstAux seen l ↔ x ∈ l ∧ x ∉ seen := by
  induction l with
  | nil => simp [dedupKeepFirstAux]
  | cons y ys ih =>
    intro seen x
    by_cases h : y ∈ seen
    · simp only [dedupKeepFirstAux, if_pos h, ih]
      constructor
      · rintro ⟨hx, hs⟩
        exact ⟨.tail _ hx, hs⟩
      · rintro ⟨hx, hs⟩
        rcases List.mem_cons.mp hx with rfl | hx
        · exact absurd h hs
        · exact ⟨hx, hs⟩
    · simp only [dedupKeepFirstAux, if_neg h, List.mem_cons, ih]
      constructor
      · rintro (rfl | ⟨hx, hs⟩)
        · exact ⟨Or.inl rfl, h⟩
        · refine ⟨Or.inr hx, fun hc => hs (List.mem_append.mpr (Or.inl hc))⟩
      · rintro ⟨rfl | hx, hs⟩
        · exact Or.inl rfl
        · by_cases hxy : x = y
          · exact Or.inl hxy
          · refine Or.inr ⟨hx, fun hc => ?_⟩
            rcases List.mem_append.mp hc with hc | hc
            · exact hs hc
            · simp at hc
              exact hxy hc

/-- The deduplicated list has no duplicates. -/
theorem nodup_dedupKeepFirstAux {α : Type} [DecidableEq α] (l : List α) :
    ∀ seen : List α, (dedupKeepFirstAux seen l).Nodup := by
  induction l with
  | nil => intro seen; simp [dedupKeepFirstAux]
  | cons y ys ih =>
    intro seen
    by_cases h : y ∈ seen
    · simpa [dedupKeepFirstAux, if_pos h] using ih seen
    · simp only [dedupKeepFirstAux, if_neg h, List.nodup_cons]
      refine ⟨fun hc => ?_, ih _⟩
      rcases (mem_dedupKeepFirstAux ys _ y).mp hc with ⟨_, hs⟩
      exact hs (List.mem_append.mpr (Or.inr (by simp)))

/-- Deduplication of a duplicate-free list of fresh elements is the
identity. -/
theorem dedupKeepFirstAux_eq_self {α : Type} [DecidableEq α] (l : List α) :
    ∀ seen : List α, l.Nodup → (∀ x ∈ l, x ∉ seen) → dedupKeepFirstAux seen l = l := by
  induction l with
  | nil => intro seen _ _; rfl
  | cons y ys ih =>
    intro seen hnd hfresh
    have hy : y ∉ seen := hfresh y (by simp)
    simp only [dedupKeepFirstAux, if_neg hy, List.cons.injEq, true_and]
    refine ih _ (List.nodup_cons.mp hnd).2 (fun x hx hc => ?_)
    rcases List.mem_append.mp hc with hc | hc
    · exact hfresh x (.tail _ hx) hc
    · simp at hc
      subst hc
      exact (List.nodup_cons.mp hnd).1 hx

/-- Membership is preserved by deduplication. -/
theorem mem_dedupKeepFirst {α : Type} [DecidableEq α] (l : List α) (x : α) :
    x ∈ dedupKeepFirst l ↔ x ∈ l := by
  simp [dedupKeepFirst, mem_dedupKeepFirstAux]

/-- Deduplication produces a duplicate-free list. -/
theorem nodup_dedupKeepFirst {α : Type} [DecidableEq α] (l : List α) :
    (dedupKeepFirst l).Nodup :=
  nodup_dedupKeepFirstAux l []

/-- Deduplication is the identity on duplicate-free lists. -/
theorem dedupKeepFirst_eq_self {α : Type} [DecidableEq α] {l : List α}
    (h : l.Nodup) : dedupKeepFirst l = l :=
  dedupKeepFirstAux_eq_self l [] h (by simp)

/-- Deduplication is idempotent. -/
theorem dedupKeepFirst_idem {α : Type} [DecidableEq α] (l : List α) :
    dedupKeepFirst (dedupKeepFirst l) = dedupKeepFirst l :=
  dedupKeepFirst_eq_self (nodup_dedupKeepFirst l)

/-- Deduplication of a nonempty list is nonempty. -/
theorem dedupKeepFirst_ne_nil {α : Type} [DecidableEq α] {l : List α}
    (h : l ≠ []) : dedupKeepFirst l ≠ [] := by
  cases l with
  | nil => exact absurd rfl h
  | cons x xs => simp [dedupKeepFirst, dedupKeepFirstAux]

/-- Unfolding of `normalizeContent` on an object content with fuel. -/
theorem normalizeContent_obj_eq (deref : String → Option Json) (fuel : Nat)
    (kvs : List (String × Json)) :
    normalizeContent deref (fuel + 1) (.obj kvs) =
      Option.map normalizeTypeField
        (match (Json.obj kvs).get "allOf" with
          | some (.arr subs) =>
            Option.map (fun w => Json.del w "allOf")
              (normalizeAllOfMembers
                (fun rs => (deref rs).bind (fun t => normalizeContent deref fuel t))
                (.obj kvs) subs)
          | _ => some (.obj kvs)) := rfl

/-- `normalizeTypeField` only touches the `type` key. -/
theorem normalizeTypeField_get_ne (c1 : Json) {k : String} (h : k ≠ "type") :
    (normalizeTypeField c1).get k = c1.get k := by
  unfold normalizeTypeField
  rcases hty : c1.get "type" with _ | ty
  · by_cases hp : (Json.truthyOpt (c1.get "properties")) || (Json.truthyOpt (c1.get "additionalProperties"))
    · simp [hp, Json.get_set_ne _ _ (Ne.symm h)]
    · simp [hp]
  · cases ty <;> simp [Json.get_set_ne _ _ (Ne.symm h)]

/-- C7: for every schema whose content is the boolean literal `true`,
`normalizeContent` returns content equal to the empty object, and for the
boolean literal `false` it returns content equal to an object whose only
key is `not` mapped to the empty object (dtsGenerator.ts lines 80-83). -/
theorem normalizeContent_boolean_schemas (deref : String → Option Json) (fuel : Nat) :
    normalizeContent deref (fuel + 1) (.bool true) = some (.obj []) ∧
    normalizeContent deref (fuel + 1) (.bool false) = some (.obj [("not", .obj [])]) :=
  ⟨rfl, rfl⟩

/-- C6: for every schema whose content carries an `allOf` list,
`normalizeContent` returns content with no `allOf` key, every member folded
into the node; and on the spec's example, folding an `allOf` of
`\x7bproperties:\x7ba\x7d\x7d` and `\x7bproperties:\x7bb\x7d, required:["b"]\x7d` yields one
schema whose `properties` are exactly `a` and `b` (the members merged by
name) and whose `required` list is exactly `["b"]`. -/
theorem normalizeContent_folds_allOf :
    (∀ (deref : String → Option Json) (fuel : Nat) (c c' : Json) (subs : List Json),
      c.get "allOf" = some (.arr subs) →
      normalizeContent deref fuel c = some c' →
      c'.get "allOf" = none) ∧
    normalizeContent (fun _ => none) 1
      (.obj [("allOf", .arr [.obj [("properties", .obj [("a", .obj [])])],
        .obj [("properties", .obj [("b", .obj [])]), ("required", .arr [.str "b"])]])]) =
      some (.obj [("properties", .obj [("a", .obj []), ("b", .obj [])]),
        ("required", .arr [.str "b"]), ("type", .str "object")]) := by
  constructor
  · intro deref fuel c c' subs hall hnorm
    match fuel, c with
    | 0, c => exact absurd hnorm (by simp [normalizeContent])
    | fuel + 1, .null | fuel + 1, .bool _ | fuel + 1, .num _
    | fuel + 1, .str _ | fuel + 1, .arr _ => exact absurd hall (by simp [Json.get])
    | fuel + 1, .obj kvs =>
      rw [normalizeContent_obj_eq, hall] at hnorm
      dsimp only at hnorm
      rcases hm : normalizeAllOfMembers
          (fun rs => (deref rs).bind (fun t => normalizeContent deref fuel t))
          (.obj kvs) subs with _ | w
      · rw [hm] at hnorm
        simp at hnorm
      · rw [hm] at hnorm
        simp only [Option.map_some', Option.some.injEq] at hnorm
        rw [← hnorm, normalizeTypeField_get_ne _ (by decide), Json.get_del_self]
  · decide

/-- Witness for C6: the general half of `normalizeContent_folds_allOf`
applied at a concrete schema with an `allOf` list. -/
theorem normalizeContent_folds_allOf_witness :
    (Json.obj [("type", Json.str "string")]).get "allOf" = none :=
  normalizeContent_folds_allOf.1 (fun _ => none) 1
    (.obj [("allOf", .arr [.obj [("type", .str "string")]])])
    (.obj [("type", .str "string")])
    [.obj [("type", .str "string")]] (by decide) (by decide)

/-- Counterexample to C8 as stated: the content
`\x7badditionalProperties: false\x7d` has `additionalProperties` and no `type`,
yet `normalizeContent` leaves it unchanged — `type` is not set to `object`,
because the source (dtsGenerator.ts line 99) tests JavaScript truthiness
and the boolean `false` is falsy. -/
theorem normalizeContent_additionalProperties_false_counterexample :
    normalizeContent (fun _ => none) 1 (.obj [("additionalProperties", .bool false)]) =
      some (.obj [("additionalProperties", .bool false)]) ∧
    (Json.obj [("additionalProperties", .bool false)]).get "type" = none ∧
    (Json.obj [("additionalProperties", .bool false)]).get "additionalProperties" =
      some (.bool false) ∧
    (Json.obj [("additionalProperties", .bool false)]).get "type" ≠
      some (.str "object") := by
  refine ⟨by decide, by decide, by decide, by decide⟩

/-- C8 (amended): for content without `allOf`, a `type` array is reduced to
its minimal distinct set (duplicate-free, same members), unwrapped when one
entry remains; and a missing `type` becomes `object` exactly when
`properties` or `additionalProperties` is present with a truthy value
(dtsGenerator.ts lines 98-104). -/
theorem normalizeContent_type_field_amended
    (deref : String → Option Json) (fuel : Nat) (c c' : Json)
    (hall : c.get "allOf" = none)
    (h : normalizeContent deref fuel c = some c') :
    (∀ ts : List Json, c.get "type" = some (.arr ts) →
      c'.get "type" = some (match reduceTypes ts with
        | [t] => t
        | l => .arr l) ∧
      (reduceTypes ts).Nodup ∧ (∀ x : Json, x ∈ reduceTypes ts ↔ x ∈ ts)) ∧
    (c.get "type" = none →
      (Json.truthyOpt (c.get "properties") || Json.truthyOpt (c.get "additionalProperties")) = true →
      c'.get "type" = some (.str "object")) := by
  match fuel, c with
  | 0, c => exact absurd h (by simp [normalizeContent])
  | fuel + 1, .null | fuel + 1, .num _ | fuel + 1, .str _ | fuel + 1, .arr _ =>
    refine ⟨fun ts hty => absurd hty (by simp [Json.get]), fun hty hp => ?_⟩
    simp [Json.get, Json.truthyOpt] at hp
  | fuel + 1, .bool b =>
    refine ⟨fun ts hty => absurd hty (by simp [Json.get]), fun hty hp => ?_⟩
    simp [Json.get, Json.truthyOpt] at hp
  | fuel + 1, .obj kvs =>
    rw [normalizeContent_obj_eq, hall] at h
    dsimp only at h
    simp only [Option.map_some', Option.some.injEq] at h
    subst h
    constructor
    · intro ts hty
      refine ⟨?_, nodup_dedupKeepFirst ts, fun x => mem_dedupKeepFirst ts x⟩
      unfold normalizeTypeField
      rw [hty]
      exact Json.get_set_self kvs "type" _
    · intro hty hp
      unfold normalizeTypeField
      rw [hty, if_pos hp]
      exact Json.get_set_self kvs "type" _

/-- Witness for C8: the amended theorem applied at the spec's example
`type:["string","string"]`, which reduces and unwraps to `type:"string"`,
and at a content with truthy `properties`, which gains `type:"object"`. -/
theorem normalizeContent_type_field_amended_witness :
    (Json.obj [("type", Json.str "string")]).get "type" = some (.str "string") ∧
    (Json.obj [("properties", Json.obj []), ("type", Json.str "object")]).get "type" =
      some (.str "object") := by
  constructor
  · have h := (normalizeContent_type_field_amended (fun _ => none) 1
      (.obj [("type", .arr [.str "string", .str "string"])])
      (.obj [("type", .str "string")]) (by decide) (by decide)).1
      [.str "string", .str "string"] (by decide)
    exact h.1
  · exact (normalizeContent_type_field_amended (fun _ => none) 1
      (.obj [("properties", .obj [])])
      (.obj [("properties", .obj []), ("type", .str "object")])
      (by decide) (by decide)).2 (by decide) (by decide)

/-- The code's tuple of length `n` agrees with the claim's slot description
whenever `n` does not exceed the effective maximum length. -/
theorem tupleSlots_eq_spec (L eM n : Nat) (hn : n ≤ eM) :
    tupleSlots L eM n = specTupleSlots L eM n := by
  unfold tupleSlots specTupleSlots
  apply List.map_congr_left
  intro i hi
  have hilt : i < n := List.mem_range.mp hi
  by_cases hL : i < L
  · simp [hL]
  · by_cases he : i = eM - 1
    · rw [if_neg hL, if_neg (by omega), if_neg hL, if_pos he]
    · rw [if_neg hL, if_pos (by omega), if_neg hL, if_neg he]

/-- Counterexample to C2 as stated: a tuple-form `items` that is the empty
list with `minItems` absent reaches the emitter, but the source
(dtsGenerator.ts line 353) emits the open array type instead of the union
of tuples the claim describes (which would be the single one-slot tuple
holding the open `any` type). -/
theorem generateArrayType_empty_items_counterexample :
    generateArrayTypeProperty (some (.inr ([] : List Json))) none = .anyArray ∧
    specTupleUnion none 0 = [[TupleSlot.anyType]] ∧
    generateArrayTypeProperty (some (.inr ([] : List Json))) none ≠
      .tupleUnion (specTupleUnion none 0) := by
  refine ⟨by decide, by decide, by decide⟩

/-- C2 (amended): for every tuple-form `items` that is nonempty or comes
with a `minItems`, the emitter outputs exactly the union of fixed-length
tuples described by the claim: one tuple per length from `minItems` (or 1
when absent) up to `effectiveMax = 1 + max(minItems or 0, items.length)`,
slots below `items.length` typed by the item schemas, the slot at
`effectiveMax - 1` open (`any`), and other overflow slots the generic
object type (dtsGenerator.ts lines 345-389). -/
theorem generateArrayType_tuple_union_amended (l : List Json) (minItems : Option Nat)
    (h : l ≠ [] ∨ minItems ≠ none) :
    generateArrayTypeProperty (some (.inr l)) minItems =
      .tupleUnion (specTupleUnion minItems l.length) := by
  unfold generateArrayTypeProperty specTupleUnion
  dsimp only
  have hcond : ¬(l.length = 0 ∧ minItems = none) := by
    rintro ⟨h1, h2⟩
    rcases h with h | h
    · exact h (List.length_eq_zero.mp h1)
    · exact h h2
  rw [if_neg hcond]
  cases minItems with
  | none =>
    simp only [Option.getD_none]
    congr 1
    apply List.map_congr_left
    intro n hn
    have := (List.mem_range'_1.mp hn).2
    exact tupleSlots_eq_spec _ _ _ (by omega)
  | some m =>
    simp only [Option.getD_some]
    congr 1
    apply List.map_congr_left
    intro n hn
    have := (List.mem_range'_1.mp hn).2
    exact tupleSlots_eq_spec _ _ _ (by omega)

/-- Witness for C2: the claim's example `items:[X,Y]`, `minItems:1` yields
the union of the 1-, 2- and 3-element tuples, the third slot open. -/
theorem generateArrayType_tuple_union_witness :
    generateArrayTypeProperty
      (some (.inr [Json.obj [("type", Json.str "string")],
        Json.obj [("type", Json.str "number")]])) (some 1) =
      .tupleUnion [[.item 0], [.item 0, .item 1], [.item 0, .item 1, .anyType]] := by
  rw [generateArrayType_tuple_union_amended _ _ (Or.inl (by decide))]
  decide

/-- C9: for every `type` string outside the recognized primitive names (and
the `any` marker) that is neither `object` nor `array`,
`generateTypeName` fails with a fatal error identifying the unknown type,
and any generation run containing such a schema yields an error — not a
partial result (dtsGenerator.ts lines 409-422, spec §7). -/
theorem generateTypeName_unknown_type_fatal (type : String)
    (h : type ∉ (["any", "string", "number", "integer", "boolean", "null",
      "object", "array"] : List String)) :
    generateTypeName type = .error (.unknownType type) ∧
    ∀ pre post : List String,
      ∃ e, generateAllTypeNames (pre ++ type :: post) = .error e := by
  simp only [List.mem_cons, not_or] at h
  obtain ⟨h1, h2, h3, h4, h5, h6, h7, h8, -⟩ := h
  have ht : toTSType type = none := by
    unfold toTSType
    split
    · exact absurd rfl h1
    · exact absurd rfl h2
    · exact absurd rfl h3
    · exact absurd rfl h4
    · exact absurd rfl h5
    · exact absurd rfl h6
    · rfl
  have hg : generateTypeName type = .error (.unknownType type) := by
    unfold generateTypeName
    rw [ht, if_neg h7, if_neg h8]
  refine ⟨hg, fun pre post => ?_⟩
  induction pre with
  | nil =>
    refine ⟨.unknownType type, ?_⟩
    simp only [List.nil_append, generateAllTypeNames, hg]
  | cons a rest ih =>
    obtain ⟨e, he⟩ := ih
    cases hga : generateTypeName a with
    | error err => exact ⟨err, by simp only [List.cons_append, generateAllTypeNames, hga]⟩
    | ok v =>
      refine ⟨e, ?_⟩
      simp only [List.cons_append, generateAllTypeNames, hga, List.append_eq, he]

/-- Witness for C9: the unknown type `foo` aborts generation. -/
theorem generateTypeName_unknown_type_fatal_witness :
    generateTypeName "foo" = .error (.unknownType "foo") ∧
    ∃ e, generateAllTypeNames (["string"] ++ "foo" :: ["boolean"]) = .error e :=
  ⟨(generateTypeName_unknown_type_fatal "foo" (by decide)).1,
    (generateTypeName_unknown_type_fatal "foo" (by decide)).2 ["string"] ["boolean"]⟩

/-- C10: the sub-schema discovery walk over an OpenAPI v3 `paths` object
visits exactly the operations stored under the keys `get`, `post`, `put`,
`patch`, `delete` and `head` of each path item; an operation under any
other method key (for example `options` or `trace`) is never visited, so
it is never discovered or registered (schema.ts lines 589-600). -/
theorem walkOpenAPIV3Paths_method_keys (pathObject : List (String × Json)) :
    (∀ path m op, (path, m, op) ∈ walkOpenAPIV3Paths pathObject → m ∈ walkMethodKeys) ∧
    (∀ path item m op, (path, item) ∈ pathObject → m ∈ walkMethodKeys →
      item.get m = some op → op.isObjectLike = true →
      (path, m, op) ∈ walkOpenAPIV3Paths pathObject) ∧
    (∀ path op, (path, "options", op) ∉ walkOpenAPIV3Paths pathObject ∧
      (path, "trace", op) ∉ walkOpenAPIV3Paths pathObject) := by
  have h1 : ∀ path m op, (path, m, op) ∈ walkOpenAPIV3Paths pathObject → m ∈ walkMethodKeys := by
    intro path m op hmem
    rw [walkOpenAPIV3Paths, List.mem_flatMap] at hmem
    obtain ⟨pkv, _, hmem⟩ := hmem
    rw [List.mem_filterMap] at hmem
    obtain ⟨m', hm', heq⟩ := hmem
    rcases hop : pkv.2.get m' with _ | op'
    · rw [hop] at heq
      simp at heq
    · rw [hop] at heq
      rw [Option.some_bind] at heq
      by_cases hol : op'.isObjectLike = true
      · rw [if_pos hol, Option.some.injEq] at heq
        cases heq
        exact hm'
      · rw [if_neg hol] at heq
        exact absurd heq (by simp)
  refine ⟨h1, fun path item m op hpi hm hget hol => ?_, fun path op => ?_⟩
  · rw [walkOpenAPIV3Paths, List.mem_flatMap]
    refine ⟨(path, item), hpi, ?_⟩
    rw [List.mem_filterMap]
    exact ⟨m, hm, by simp [hget, hol]⟩
  · constructor
    · intro hc
      exact absurd (h1 _ _ _ hc) (by decide)
    · intro hc
      exact absurd (h1 _ _ _ hc) (by decide)

/-- Witness for C10: in a path item carrying both a `get` and an `options`
operation, the `get` operation is visited. -/
theorem walkOpenAPIV3Paths_method_keys_witness :
    ("/pets", "get", Json.obj [("operationId", Json.str "listPets")]) ∈
      walkOpenAPIV3Paths [("/pets", Json.obj
        [("get", Json.obj [("operationId", Json.str "listPets")]),
          ("options", Json.obj [("operationId", Json.str "optionsPets")])])] :=
  (walkOpenAPIV3Paths_method_keys _).2.1 "/pets"
    (Json.obj [("get", Json.obj [("operationId", Json.str "listPets")]),
      ("options", Json.obj [("operationId", Json.str "optionsPets")])])
    "get" (Json.obj [("operationId", Json.str "listPets")])
    (by decide) (by decide) (by decide) (by decide)

/-- C1 evaluated at the failing input (code bug): for an operation with a
required `path` parameter `id` and an optional `query` parameter `q`, the
synthesized `path` parameter-group schema's properties are `id` AND `q` —
a parameter from a different location appears — and the `query` group's
`required` list is `["id"]`, the name of the path parameter, not of any
query parameter.  The source computes `filterdParams` but then reduces over
all `params` (dtsGenerator.ts line 147), so every location group receives
every operation parameter. -/
theorem normalizeParameter_group_mixes_locations :
    normalizeParameter (fun _ => none) "ops" requestInitialContent
      [⟨"id", "path", true, some (.obj [("type", .str "string")])⟩,
        ⟨"q", "query", false, some (.obj [("type", .str "string")])⟩] "path" =
      some (.obj [("properties", .obj [("pathParam", .obj [("$ref", .str "ops/pathParameter")])]),
          ("required", .arr [.str "pathParam"]), ("type", .str "object")],
        some ⟨"ops/pathParameter", .obj [("type", .str "object"),
          ("properties", .obj [("id", .obj [("type", .str "string")]),
            ("q", .obj [("type", .str "string")])]),
          ("required", .arr [.str "id"])]⟩) ∧
    normalizeParameter (fun _ => none) "ops" requestInitialContent
      [⟨"id", "path", true, some (.obj [("type", .str "string")])⟩,
        ⟨"q", "query", false, some (.obj [("type", .str "string")])⟩] "query" =
      some (.obj [("properties", .obj [("queryParam", .obj [("$ref", .str "ops/queryParameter")])]),
          ("required", .arr [.str "queryParam"]), ("type", .str "object")],
        some ⟨"ops/queryParameter", .obj [("type", .str "object"),
          ("properties", .obj [("id", .obj [("type", .str "string")]),
            ("q", .obj [("type", .str "string")])]),
          ("required", .arr [.str "id"])]⟩) ∧
    (ParameterObject.mk "q" "query" false (some (.obj [("type", .str "string")]))).«in» ≠ "path" ∧
    (ParameterObject.mk "id" "path" true (some (.obj [("type", .str "string")]))).«in» ≠ "query" := by
  refine ⟨by decide, by decide, by decide, by decide⟩

/-- C3 evaluated at the failing input (code bug): a request body present in
`application/json` and `application/xml` does synthesize two
`RequestBody` schemas with `json`/`xml` name prefixes and two
request-wrapper variants — but both wrapper variants alias the single
request content object (`Object.assign` copies shallowly, dtsGenerator.ts
lines 210-212), so after the loop both hold a `body` property referencing
the LAST media type's body schema: the `jsonRequest` wrapper references
`ops/xmlRequestBody`, not its own `ops/jsonRequestBody`. -/
theorem requestBody_wrappers_share_last_body_reference :
    resolveRequestBodySection (fun _ => none) "ops" requestInitialContent
      (.obj [("content", .obj
        [("application/json", .obj [("schema", .obj [("type", .str "string")])]),
          ("application/xml", .obj [("schema", .obj [("type", .str "integer")])])])]) =
      some (.obj [("properties", .obj [("body", .obj [("$ref", .str "ops/xmlRequestBody")])]),
          ("required", .arr []), ("type", .str "object")],
        [.body ⟨"ops/jsonRequestBody", .obj [("type", .str "string")]⟩,
          .wrapper "ops/jsonRequest",
          .body ⟨"ops/xmlRequestBody", .obj [("type", .str "integer")]⟩,
          .wrapper "ops/xmlRequest"]) ∧
    materializeEntries
      (.obj [("properties", .obj [("body", .obj [("$ref", .str "ops/xmlRequestBody")])]),
        ("required", .arr []), ("type", .str "object")])
      [.body ⟨"ops/jsonRequestBody", .obj [("type", .str "string")]⟩,
        .wrapper "ops/jsonRequest",
        .body ⟨"ops/xmlRequestBody", .obj [("type", .str "integer")]⟩,
        .wrapper "ops/xmlRequest"] =
      [⟨"ops/jsonRequestBody", .obj [("type", .str "string")]⟩,
        ⟨"ops/jsonRequest", .obj [("properties", .obj [("body", .obj [("$ref", .str "ops/xmlRequestBody")])]),
          ("required", .arr []), ("type", .str "object")]⟩,
        ⟨"ops/xmlRequestBody", .obj [("type", .str "integer")]⟩,
        ⟨"ops/xmlRequest", .obj [("properties", .obj [("body", .obj [("$ref", .str "ops/xmlRequestBody")])]),
          ("required", .arr []), ("type", .str "object")]⟩] ∧
    (Json.obj [("properties", .obj [("body", .obj [("$ref", .str "ops/xmlRequestBody")])]),
      ("required", .arr []), ("type", .str "object")]).getPtr ["properties", "body", "$ref"] =
      some (.str "ops/xmlRequestBody") ∧
    ("ops/xmlRequestBody" : String) ≠ "ops/jsonRequestBody" := by
  refine ⟨by decide, by decide, by decide, by decide⟩

/-- Counterexample to C4 as stated: a schema whose content is already
normalized at the top level (no `allOf`, `type` present) is returned
unchanged by `normalizeContent`, yet a later `normalizeContent` call on the
`/properties/p` pointer — as `generateProperties` performs during emission —
rewrites the property node in place (`delete content.allOf`,
dtsGenerator.ts line 95), so the schema's content tree IS mutated after its
normalization, and not by the typeMarker deletion. -/
theorem normalizeContent_subpointer_mutates_parent :
    normalizeContent (fun _ => none) 1
      (.obj [("type", .str "object"),
        ("properties", .obj [("p", .obj [("allOf", .arr [.obj [("type", .str "string")]])])])]) =
      some (.obj [("type", .str "object"),
        ("properties", .obj [("p", .obj [("allOf", .arr [.obj [("type", .str "string")]])])])]) ∧
    normalizeInPlaceAt (fun _ => none) 1
      (.obj [("type", .str "object"),
        ("properties", .obj [("p", .obj [("allOf", .arr [.obj [("type", .str "string")]])])])])
      ["properties", "p"] =
      some (.obj [("type", .str "object"),
        ("properties", .obj [("p", .obj [("type", .str "string")])])]) ∧
    (Json.obj [("type", .str "object"),
      ("properties", .obj [("p", .obj [("type", .str "string")])])]) ≠
    (Json.obj [("type", .str "object"),
      ("properties", .obj [("p", .obj [("allOf", .arr [.obj [("type", .str "string")]])])])]) := by
  refine ⟨by decide, by decide, by decide⟩

/-- C4 (amended): after a schema's content has been normalized, the
emitter's only content write outside `normalizeContent` itself — the
`type` reassignment of `generateType` (dtsGenerator.ts line 400) — leaves
the content unchanged, provided the original `type` array (if any) was a
nonempty array of type names; content mutation after normalization is thus
confined to the typeMarker deletion and to later in-place
`normalizeContent` calls on sub-schema pointers. -/
theorem emitter_type_write_preserves_normalized_content
    (deref : String → Option Json) (fuel : Nat) (c0 c : Json)
    (hall : c0.get "allOf" = none)
    (hty : ∀ ts : List Json, c0.get "type" = some (.arr ts) →
      ts ≠ [] ∧ ts.all (fun t => match t with
        | .str _ => true
        | _ => false) = true)
    (h : normalizeContent deref fuel c0 = some c) :
    generateTypeWrite c = c := by
  match fuel, c0 with
  | 0, _ => exact absurd h (by simp [normalizeContent])
  | fuel + 1, .bool true =>
    have he : normalizeContent deref (fuel + 1) (.bool true) = some (.obj []) := rfl
    rw [he, Option.some.injEq] at h
    subst h
    rfl
  | fuel + 1, .bool false =>
    have he : normalizeContent deref (fuel + 1) (.bool false) =
      some (.obj [("not", .obj [])]) := rfl
    rw [he, Option.some.injEq] at h
    subst h
    rfl
  | fuel + 1, .null =>
    have he : normalizeContent deref (fuel + 1) .null = some .null := rfl
    rw [he, Option.some.injEq] at h
    subst h
    rfl
  | fuel + 1, .num n =>
    have he : normalizeContent deref (fuel + 1) (.num n) = some (.num n) := rfl
    rw [he, Option.some.injEq] at h
    subst h
    rfl
  | fuel + 1, .str s =>
    have he : normalizeContent deref (fuel + 1) (.str s) = some (.str s) := rfl
    rw [he, Option.some.injEq] at h
    subst h
    rfl
  | fuel + 1, .arr xs =>
    have he : normalizeContent deref (fuel + 1) (.arr xs) = some (.arr xs) := rfl
    rw [he, Option.some.injEq] at h
    subst h
    rfl
  | fuel + 1, .obj kvs =>
    rw [normalizeContent_obj_eq, hall] at h
    dsimp only at h
    rw [Option.map_some', Option.some.injEq] at h
    subst h
    unfold normalizeTypeField
    rcases hget : (Json.obj kvs).get "type" with _ | ty
    · by_cases hp : (Json.truthyOpt ((Json.obj kvs).get "properties") ||
        Json.truthyOpt ((Json.obj kvs).get "additionalProperties")) = true
      · rw [if_pos hp]
        unfold generateTypeWrite
        rw [Json.get_set_self]
      · rw [if_neg hp]
        unfold generateTypeWrite
        rw [hget]
    · match ty with
      | .null | .bool _ | .num _ | .str _ | .obj _ =>
        unfold generateTypeWrite
        rw [hget]
      | .arr ts =>
        obtain ⟨hne, hstr⟩ := hty ts hget
        dsimp only
        rcases hred : reduceTypes ts with _ | ⟨t1, ts2⟩
        · exact absurd hred (dedupKeepFirst_ne_nil hne)
        · rcases ts2 with _ | ⟨t2, ts3⟩
          · have ht1 : t1 ∈ ts := by
              have hm : t1 ∈ reduceTypes ts := by
                rw [hred]
                exact List.mem_singleton_self t1
              exact (mem_dedupKeepFirst ts t1).mp hm
            have hs := List.all_eq_true.mp hstr t1 ht1
            have hex : ∃ s, t1 = Json.str s := by
              cases t1
              case str s => exact ⟨s, rfl⟩
              all_goals simp at hs
            obtain ⟨s, rfl⟩ := hex
            unfold generateTypeWrite
            rw [Json.get_set_self]
          · dsimp only
            unfold generateTypeWrite
            rw [Json.get_set_self]
            dsimp only
            have hidem : reduceTypes (t1 :: t2 :: ts3) = t1 :: t2 :: ts3 := by
              rw [← hred]
              exact dedupKeepFirst_idem ts
            rw [hidem]

/-- Witness for C4: the amended theorem applied to a normalized content
whose `type` is the two-element array `["string","number"]`; the emitter's
`type` write leaves it unchanged. -/
theorem emitter_type_write_preserves_normalized_content_witness :
    generateTypeWrite (.obj [("type", .arr [.str "string", .str "number"])]) =
      .obj [("type", .arr [.str "string", .str "number"])] :=
  emitter_type_write_preserves_normalized_content (fun _ => none) 1
    (.obj [("type", .arr [.str "string", .str "number"])])
    (.obj [("type", .arr [.str "string", .str "number"])])
    (by decide)
    (fun ts hts => by
      rw [show (Json.obj [("type", Json.arr [Json.str "string", Json.str "number"])]).get "type" =
        some (.arr [Json.str "string", Json.str "number"]) from rfl] at hts
      injection hts with h1
      injection h1 with h2
      subst h2
      decide)
    (by decide)

/-- The sorted key order produced by `sortChildren`. -/
theorem sortChildren_sorted (cs : List (String × NsNode)) :
    (sortChildren cs).Sorted (fun a b : String × NsNode => a.1 ≤ b.1) := by
  haveI : IsTotal (String × NsNode) (fun a b : String × NsNode => a.1 ≤ b.1) :=
    ⟨fun a b => le_total a.1 b.1⟩
  haveI : IsTrans (String × NsNode) (fun a b : String × NsNode => a.1 ≤ b.1) :=
    ⟨fun _ _ _ hab hbc => le_trans hab hbc⟩
  exact List.sorted_insertionSort _ cs

/-- Two enumerations of the same namespace level (same entries in any
insertion order, keys unique) sort to the same list. -/
theorem sortChildren_eq_of_perm {cs cs' : List (String × NsNode)} (hp : cs.Perm cs')
    (hnd : (cs.map Prod.fst).Nodup) : sortChildren cs = sortChildren cs' := by
  haveI : IsAntisymm (String × NsNode) (fun a b : String × NsNode => a.1 < b.1) :=
    ⟨fun a b h1 h2 => absurd (lt_trans h1 h2) (lt_irrefl _)⟩
  have hperm : (sortChildren cs).Perm (sortChildren cs') :=
    ((List.perm_insertionSort _ cs).trans hp).trans (List.perm_insertionSort _ cs').symm
  have hnd' : (cs'.map Prod.fst).Nodup := ((hp.map Prod.fst).nodup_iff).mp hnd
  have strict : ∀ (l : List (String × NsNode)), (l.map Prod.fst).Nodup →
      (sortChildren l).Pairwise (fun a b : String × NsNode => a.1 < b.1) := by
    intro l hl
    have hsorted := sortChildren_sorted l
    have hndl : ((sortChildren l).map Prod.fst).Nodup :=
      (((List.perm_insertionSort _ l).map Prod.fst).nodup_iff).mpr hl
    have hne : (sortChildren l).Pairwise (fun a b : String × NsNode => a.1 ≠ b.1) :=
      List.pairwise_map.mp hndl
    exact (hsorted.and hne).imp (fun h => lt_of_le_of_ne h.1 h.2)
  exact List.eq_of_perm_of_sorted hperm (strict cs hnd) (strict cs' hnd')

/-- C5: the tree walk is deterministic — two enumerations of the same
namespace level (in any insertion order, keys unique) produce identical
event sequences, because every level is visited through
`Object.keys(map).sort()` — and the visit order of keys at every level is
lexicographically sorted (dtsGenerator.ts lines 39-55). -/
theorem walk_deterministic_and_sorted :
    (∀ cs cs' : List (String × NsNode), cs.Perm cs' → (cs.map Prod.fst).Nodup →
      walkMap cs = walkMap cs') ∧
    (∀ cs : List (String × NsNode),
      ((sortChildren cs).map Prod.fst).Sorted (fun a b : String => a ≤ b)) := by
  constructor
  · intro cs cs' hp hnd
    simp only [walkMap]
    rw [sortChildren_eq_of_perm hp hnd]
  · intro cs
    exact List.pairwise_map.mpr (sortChildren_sorted cs)

/-- Witness for C5: two insertion orders of the same two-schema namespace
level walk to the same event sequence. -/
theorem walk_deterministic_witness :
    walkMap [("b", NsNode.mk (some "S1") []), ("a", NsNode.mk (some "S2") [])] =
      walkMap [("a", NsNode.mk (some "S2") []), ("b", NsNode.mk (some "S1") [])] :=
  walk_deterministic_and_sorted.1 _ _
    (List.Perm.swap ("a", NsNode.mk (some "S2") []) ("b", NsNode.mk (some "S1") []) [])
    (by decide)
